import Mathlib

/-!
Verification development for the api-explorer repository.

The TypeScript sources are shallowly embedded: records
(`Record<string,string>`, JS objects, ES `Map`s) become association lists
with JS insertion-order semantics, machine integers become `Nat`/`Int`,
fallible code returns `Option`/`Except`, and effectful functions are
modelled by explicit state passing or by classifying an explicitly given
outcome.  Platform primitives that the repository calls but does not
define (`encodeURIComponent`, `String.prototype.trim`, `JSON.parse`,
WebCrypto AES-GCM/PBKDF2) are implemented here following their platform
specifications, except that authenticated encryption is idealised (see
the CryptoVault section).
-/

namespace ApiExplorer

/-! ## JS string primitives -/

/-- Does `pat` occur as a contiguous sublist? -/
def containsSubAux (pat : List Char) : List Char → Bool
  | [] => pat.isEmpty
  | c :: rest => pat.isPrefixOf (c :: rest) || containsSubAux pat rest

/-- JS `String.prototype.includes`: `needle` occurs as a contiguous
substring of `hay`. -/
def containsSub (hay needle : String) : Bool :=
  containsSubAux needle.toList hay.toList

/-- One step of first-occurrence replacement over character lists:
replace the first occurrence of `pat` (non-empty) by `rep`. -/
def replaceFirstAux (pat rep : List Char) : List Char → List Char
  | [] => []
  | c :: rest =>
    if pat.isPrefixOf (c :: rest) then rep ++ (c :: rest).drop pat.length
    else c :: replaceFirstAux pat rep rest

/-- JS `String.prototype.replace` with a plain string pattern: replaces
only the FIRST occurrence of `pat` in `s` (the replacement string never
contains `$`, so special replacement patterns cannot arise here). -/
def replaceFirst (s pat rep : String) : String :=
  if pat.toList.isEmpty then String.mk (rep.toList ++ s.toList)
  else String.mk (replaceFirstAux pat.toList rep.toList s.toList)

/-- Replace every occurrence of `pat` by `rep`, scanning left to right and
continuing after each replaced segment (JS `replaceAll` semantics).  Used
only by claim-side specification functions.  The fuel argument (the
input length suffices, since every step consumes at least one character
when `pat` is non-empty) keeps the recursion structural. -/
def replaceAllAux (pat rep : List Char) : Nat → List Char → List Char
  | _, [] => []
  | 0, l => l
  | Nat.succ fuel, c :: rest =>
    if pat.isPrefixOf (c :: rest) ∧ pat ≠ [] then
      rep ++ replaceAllAux pat rep fuel ((c :: rest).drop pat.length)
    else
      c :: replaceAllAux pat rep fuel rest

def replaceAll (s pat rep : String) : String :=
  String.mk (replaceAllAux pat.toList rep.toList s.toList.length s.toList)

/-- Uppercase hex digit for a value below 16. -/
def hexDigit (n : Nat) : Char :=
  if n < 10 then Char.ofNat (48 + n) else Char.ofNat (55 + n)

/-- `%XX` percent-escape of one byte. -/
def percentByte (b : Nat) : String :=
  String.mk [Char.ofNat 37, hexDigit (b / 16 % 16), hexDigit (b % 16)]

/-- UTF-8 bytes of a character, as natural numbers. -/
def utf8Bytes (c : Char) : List Nat :=
  let n := c.toNat
  if n < 0x80 then [n]
  else if n < 0x800 then [0xC0 + n / 64, 0x80 + n % 64]
  else if n < 0x10000 then [0xE0 + n / 4096, 0x80 + n / 64 % 64, 0x80 + n % 64]
  else [0xF0 + n / 262144, 0x80 + n / 4096 % 64, 0x80 + n / 64 % 64, 0x80 + n % 64]

/-- Characters left unescaped by `encodeURIComponent`:
`A-Z a-z 0-9 - _ . ! ~ *  ( )` and the apostrophe (ECMA-262). -/
def uriUnreserved (c : Char) : Bool :=
  (65 ≤ c.toNat ∧ c.toNat ≤ 90) ∨ (97 ≤ c.toNat ∧ c.toNat ≤ 122) ∨
  (48 ≤ c.toNat ∧ c.toNat ≤ 57) ∨
  c.toNat = 45 ∨ c.toNat = 95 ∨ c.toNat = 46 ∨ c.toNat = 33 ∨
  c.toNat = 126 ∨ c.toNat = 42 ∨ c.toNat = 39 ∨ c.toNat = 40 ∨ c.toNat = 41

/-- The platform `encodeURIComponent`: unreserved characters kept,
everything else percent-escaped byte-wise in UTF-8 with uppercase hex. -/
def encodeURIComponent (s : String) : String :=
  String.join (s.toList.map fun c =>
    if uriUnreserved c then String.mk [c]
    else String.join ((utf8Bytes c).map percentByte))

/-- The whitespace set trimmed by JS `String.prototype.trim` (the
code points relevant here). -/
def jsWhitespace (c : Char) : Bool :=
  c.toNat = 9 ∨ c.toNat = 10 ∨ c.toNat = 11 ∨ c.toNat = 12 ∨ c.toNat = 13 ∨
  c.toNat = 32 ∨ c.toNat = 160 ∨ c.toNat = 0x2028 ∨ c.toNat = 0x2029 ∨
  c.toNat = 0xFEFF

/-- JS `String.prototype.trim`. -/
def jsTrim (s : String) : String :=
  String.mk (((s.toList.dropWhile jsWhitespace).reverse.dropWhile jsWhitespace).reverse)

/-- Does the string end with a slash (the `\x2f$` regex test)? -/
def endsWithSlash (s : String) : Bool :=
  match s.toList.getLast? with
  | some c => c.toNat = 47
  | none => false

/-- Does the string start with a slash? -/
def startsWithSlash (s : String) : Bool :=
  match s.toList with
  | c :: _ => c.toNat = 47
  | [] => false

/-- Drop the final character. -/
def dropLastChar (s : String) : String := String.mk s.toList.dropLast

/-- ASCII lower-casing (JS `toLowerCase` on the characters occurring in
header names). -/
def asciiLower (s : String) : String :=
  String.mk (s.toList.map fun c =>
    if 65 ≤ c.toNat ∧ c.toNat ≤ 90 then Char.ofNat (c.toNat + 32) else c)

/-! ## Association lists with JS-object / ES-Map semantics

A TS `Record<string, string>` or an ES `Map` is a key-ordered collection:
assigning to an existing key updates the value in place (keeping the key
position), assigning a new key appends it. -/

/-- First value stored under key `k`. -/
def lookupStr {α : Type} (m : List (String × α)) (k : String) : Option α :=
  (m.find? fun kv => kv.1 == k).map (fun kv => kv.2)

/-- JS assignment `m[k] = v` / `Map.set`: update in place if the key is
present, append otherwise. -/
def assocSet {α : Type} (m : List (String × α)) (k : String) (v : α) :
    List (String × α) :=
  if (m.find? fun kv => kv.1 == k).isSome then
    m.map fun kv => if kv.1 == k then (k, v) else kv
  else
    m ++ [(k, v)]

abbrev StrMap := List (String × String)

/-- `Object.assign(target, src)`: assign every entry of `src` in order. -/
def mAssign {α : Type} (target src : List (String × α)) : List (String × α) :=
  src.foldl (fun acc kv => assocSet acc kv.1 kv.2) target

/-! ## JS values and JSON

A minimal model of JS runtime values (`unknown` in the TS sources) as far
as the verified code inspects them: null, booleans, numbers (modelled as
integers), strings, arrays and objects.  `jsonStringify` models
`JSON.stringify`, `jsonParse` models `JSON.parse` (restricted to integer
numeric literals). -/

inductive JsVal where
  | jsNull
  | jsBool (b : Bool)
  | jsNum (n : Int)
  | jsStr (s : String)
  | jsArr (elems : List JsVal)
  | jsObj (fields : List (String × JsVal))

/-- Is this value the JS `null`? -/
def JsVal.isNullVal : JsVal → Bool
  | .jsNull => true
  | _ => false

/-- JS truthiness of a value (used by `params.body ? ... : undefined`). -/
def jsTruthy : JsVal → Bool
  | .jsNull => false
  | .jsBool b => b
  | .jsNum n => n != 0
  | .jsStr s => s != ""
  | .jsArr _ => true
  | .jsObj _ => true

def hexDigitLower (n : Nat) : Char :=
  if n < 10 then Char.ofNat (48 + n) else Char.ofNat (87 + n)

/-- JSON string escaping of one character, as `JSON.stringify` emits it. -/
def jsonEscapeChar (c : Char) : String :=
  if c.toNat = 34 then "\\\""
  else if c.toNat = 92 then "\\\\"
  else if c.toNat = 8 then "\\b"
  else if c.toNat = 9 then "\\t"
  else if c.toNat = 10 then "\\n"
  else if c.toNat = 12 then "\\f"
  else if c.toNat = 13 then "\\r"
  else if c.toNat < 32 then
    "\\u00" ++ String.mk [hexDigitLower (c.toNat / 16), hexDigitLower (c.toNat % 16)]
  else String.mk [c]

def jsonQuote (s : String) : String :=
  "\"" ++ String.join (s.toList.map jsonEscapeChar) ++ "\""

/-- The platform `JSON.stringify` on our value model. -/
def jsonStringify : JsVal → String
  | .jsNull => "null"
  | .jsBool true => "true"
  | .jsBool false => "false"
  | .jsNum n => toString n
  | .jsStr s => jsonQuote s
  | .jsArr elems =>
    "[" ++ String.intercalate "," (elems.attach.map fun e => jsonStringify e.1) ++ "]"
  | .jsObj fields =>
    "\x7b" ++
      String.intercalate ","
        (fields.attach.map fun f => jsonQuote f.1.1 ++ ":" ++ jsonStringify f.1.2) ++
      "\x7d"
  termination_by v => sizeOf v
  decreasing_by
    · have h := List.sizeOf_lt_of_mem e.2
      simp only [JsVal.jsArr.sizeOf_spec]
      omega
    · have h := List.sizeOf_lt_of_mem f.2
      obtain ⟨⟨s, v⟩, hf⟩ := f
      simp only [Prod.mk.sizeOf_spec] at h
      simp only [JsVal.jsObj.sizeOf_spec]
      omega

/-- JSON insignificant whitespace. -/
def isJsonWsChar (c : Char) : Bool :=
  c.toNat = 32 ∨ c.toNat = 9 ∨ c.toNat = 10 ∨ c.toNat = 13

def skipJsonWs (cs : List Char) : List Char := cs.dropWhile isJsonWsChar

def hexVal (c : Char) : Option Nat :=
  if 48 ≤ c.toNat ∧ c.toNat ≤ 57 then some (c.toNat - 48)
  else if 97 ≤ c.toNat ∧ c.toNat ≤ 102 then some (c.toNat - 87)
  else if 65 ≤ c.toNat ∧ c.toNat ≤ 70 then some (c.toNat - 55)
  else none

/-- JSON string body, the opening quote already consumed; returns the
decoded string and the input after the closing quote. -/
def parseJsonStringAux (acc : List Char) : List Char → Option (String × List Char)
  | [] => none
  | c :: rest =>
    if c.toNat = 34 then some (String.mk acc.reverse, rest)
    else if c.toNat = 92 then
      match rest with
      | [] => none
      | e :: rest2 =>
        if e.toNat = 34 then parseJsonStringAux (Char.ofNat 34 :: acc) rest2
        else if e.toNat = 92 then parseJsonStringAux (Char.ofNat 92 :: acc) rest2
        else if e.toNat = 47 then parseJsonStringAux (Char.ofNat 47 :: acc) rest2
        else if e = 'b' then parseJsonStringAux (Char.ofNat 8 :: acc) rest2
        else if e = 'f' then parseJsonStringAux (Char.ofNat 12 :: acc) rest2
        else if e = 'n' then parseJsonStringAux (Char.ofNat 10 :: acc) rest2
        else if e = 'r' then parseJsonStringAux (Char.ofNat 13 :: acc) rest2
        else if e = 't' then parseJsonStringAux (Char.ofNat 9 :: acc) rest2
        else if e = 'u' then
          match rest2 with
          | h1 :: h2 :: h3 :: h4 :: rest3 =>
            match hexVal h1, hexVal h2, hexVal h3, hexVal h4 with
            | some a, some b, some c2, some d =>
              parseJsonStringAux (Char.ofNat (a * 4096 + b * 256 + c2 * 16 + d) :: acc) rest3
            | _, _, _, _ => none
          | _ => none
        else none
    else parseJsonStringAux (c :: acc) rest

def isDigitChar (c : Char) : Bool := 48 ≤ c.toNat ∧ c.toNat ≤ 57

def natFromDigits (ds : List Char) : Nat :=
  ds.foldl (fun a c => a * 10 + (c.toNat - 48)) 0

/-- JSON numeric literal, restricted to integers: an optional minus sign
followed by digits; a fractional part or exponent makes the parse fail
(a deliberate restriction of the model). -/
def parseJsonNum (cs : List Char) : Option (JsVal × List Char) :=
  let (neg, cs2) :=
    match cs with
    | c :: rest => if c.toNat = 45 then (true, rest) else (false, cs)
    | [] => (false, cs)
  let ds := cs2.takeWhile isDigitChar
  let rest := cs2.dropWhile isDigitChar
  if ds.isEmpty then none
  else
    match rest with
    | c :: _ =>
      if c.toNat = 46 ∨ c = 'e' ∨ c = 'E' then none
      else
        some (.jsNum (if neg then -(natFromDigits ds : Int) else (natFromDigits ds : Int)), rest)
    | [] =>
      some (.jsNum (if neg then -(natFromDigits ds : Int) else (natFromDigits ds : Int)), rest)

mutual

/-- Fuel-indexed recursive-descent JSON value parser. -/
def parseJsonVal : Nat → List Char → Option (JsVal × List Char)
  | 0, _ => none
  | Nat.succ fuel, cs =>
    match skipJsonWs cs with
    | [] => none
    | c :: rest =>
      if c = 'n' then
        if ['u', 'l', 'l'].isPrefixOf rest then some (.jsNull, rest.drop 3) else none
      else if c = 't' then
        if ['r', 'u', 'e'].isPrefixOf rest then some (.jsBool true, rest.drop 3) else none
      else if c = 'f' then
        if ['a', 'l', 's', 'e'].isPrefixOf rest then some (.jsBool false, rest.drop 4) else none
      else if c.toNat = 34 then
        (parseJsonStringAux [] rest).map fun sr => (.jsStr sr.1, sr.2)
      else if c.toNat = 91 then
        match skipJsonWs rest with
        | ch :: tl => if ch.toNat = 93 then some (.jsArr [], tl) else parseJsonElems fuel [] rest
        | [] => none
      else if c.toNat = 123 then
        match skipJsonWs rest with
        | ch :: tl => if ch.toNat = 125 then some (.jsObj [], tl) else parseJsonMembers fuel [] rest
        | [] => none
      else parseJsonNum (c :: rest)

/-- Comma-separated array elements up to the closing bracket. -/
def parseJsonElems : Nat → List JsVal → List Char → Option (JsVal × List Char)
  | 0, _, _ => none
  | Nat.succ fuel, acc, cs =>
    match parseJsonVal fuel cs with
    | none => none
    | some (v, rest) =>
      match skipJsonWs rest with
      | ch :: tl =>
        if ch = ',' then parseJsonElems fuel (v :: acc) tl
        else if ch.toNat = 93 then some (.jsArr (v :: acc).reverse, tl)
        else none
      | [] => none

/-- Comma-separated object members up to the closing brace. -/
def parseJsonMembers : Nat → List (String × JsVal) → List Char → Option (JsVal × List Char)
  | 0, _, _ => none
  | Nat.succ fuel, acc, cs =>
    match skipJsonWs cs with
    | q :: rest =>
      if q.toNat = 34 then
        match parseJsonStringAux [] rest with
        | none => none
        | some (key, rest2) =>
          match skipJsonWs rest2 with
          | colon :: tl =>
            if colon = ':' then
              match parseJsonVal fuel tl with
              | none => none
              | some (v, rest3) =>
                match skipJsonWs rest3 with
                | ch :: tl2 =>
                  if ch = ',' then parseJsonMembers fuel ((key, v) :: acc) tl2
                  else if ch.toNat = 125 then some (.jsObj ((key, v) :: acc).reverse, tl2)
                  else none
                | [] => none
            else none
          | [] => none
      else none
    | [] => none

end

/-- The platform `JSON.parse` (on the modelled grammar): the whole input
must be one JSON value surrounded only by whitespace. -/
def jsonParse (s : String) : Option JsVal :=
  match parseJsonVal (s.length + 2) s.toList with
  | some (v, rest) => if skipJsonWs rest = [] then some v else none
  | none => none

/-! ## OpenAPI data model (src/src/services/openapi.ts, models/types.ts) -/

inductive HttpMethod where
  | get | post | put | patch | delete | head | options
  deriving Repr, DecidableEq

/-- `VALID_METHODS` from openapi.ts, in source order. -/
def VALID_METHODS : List HttpMethod :=
  [.get, .post, .put, .patch, .delete, .head, .options]

/-- `method.toUpperCase()` for the seven valid methods. -/
def methodUpper : HttpMethod → String
  | .get => "GET"
  | .post => "POST"
  | .put => "PUT"
  | .patch => "PATCH"
  | .delete => "DELETE"
  | .head => "HEAD"
  | .options => "OPTIONS"

/-- `OpenAPIV3.ParameterObject` as far as the code reads it: `name`,
`in`, plus the payload fields the spec claims are observable.  The
`schema` payload is kept as an opaque string handle. -/
structure ParameterObject where
  name : String
  paramIn : String
  required : Bool
  description : Option String
  schema : Option String
  deriving Repr, DecidableEq

/-- A parameter entry may still be an unresolved `$ref` (detected in the
source by testing for a `$ref` field). -/
inductive ParamOrRef where
  | ref (path : String)
  | param (p : ParameterObject)
  deriving Repr, DecidableEq

/-- The `in:name` Map key used by `mergeParameters`. -/
def paramKey (p : ParameterObject) : String := p.paramIn ++ ":" ++ p.name

/-- The loop body shared by both passes of `mergeParameters`: skip
`$ref`s and entries whose `name` or `in` is falsy, set the rest keyed by
`in:name` into the Map. -/
def addParams (m : List (String × ParameterObject)) (ps : List ParamOrRef) :
    List (String × ParameterObject) :=
  ps.foldl
    (fun acc x =>
      match x with
      | .ref _ => acc
      | .param p =>
        if p.name ≠ "" ∧ p.paramIn ≠ "" then assocSet acc (paramKey p) p else acc)
    m

/-- `mergeParameters(pathParams, opParams)`: path-level entries first,
operation-level entries second (overriding on an equal key), then the
Map values in insertion order. -/
def mergeParameters (pathParams opParams : List ParamOrRef) : List ParameterObject :=
  (addParams (addParams [] pathParams) opParams).map fun kv => kv.2

/-- `OpenAPIV3.OperationObject` as far as `extractOperations` reads it.
`requestBody` and `responses` are opaque payload handles. -/
structure OperationObject where
  operationId : Option String
  summary : Option String
  description : Option String
  tags : List String
  parameters : List ParamOrRef
  requestBody : Option String
  responses : Option String
  deriving Repr, DecidableEq

/-- One `paths` item: the seven method slots plus path-level parameters. -/
structure PathItem where
  get : Option OperationObject
  post : Option OperationObject
  put : Option OperationObject
  patch : Option OperationObject
  delete : Option OperationObject
  head : Option OperationObject
  options : Option OperationObject
  parameters : List ParamOrRef
  deriving Repr, DecidableEq

/-- `pathItem[method]`. -/
def methodField (it : PathItem) : HttpMethod → Option OperationObject
  | .get => it.get
  | .post => it.post
  | .put => it.put
  | .patch => it.patch
  | .delete => it.delete
  | .head => it.head
  | .options => it.options

/-- The dereferenced document as `extractOperations` consumes it:
`doc.paths` entries in insertion order; a slot may be nullish
(`if (!pathItem) continue`). -/
structure OpenApiDocument where
  paths : List (String × Option PathItem)
  deriving Repr, DecidableEq

/-- The flattened operation record (`ApiOperation` in models/types.ts). -/
structure ApiOperation where
  operationId : String
  method : HttpMethod
  path : String
  summary : Option String
  description : Option String
  tags : List String
  parameters : List ParameterObject
  requestBody : Option String
  responses : Option String
  deriving Repr, DecidableEq

/-- `generateOperationId(method, path)`: upper-cased method, an
underscore, and the path with every character outside `[a-zA-Z0-9]`
replaced by `_` (a global regex replace). -/
def generateOperationId (m : HttpMethod) (path : String) : String :=
  methodUpper m ++ "_" ++
    String.mk (path.toList.map fun c =>
      if (48 ≤ c.toNat ∧ c.toNat ≤ 57) ∨ (65 ≤ c.toNat ∧ c.toNat ≤ 90) ∨
         (97 ≤ c.toNat ∧ c.toNat ≤ 122) then c else Char.ofNat 95)

/-- `operation.operationId || generateOperationId(method, path)`: the JS
`||` falls through on the empty string as well as on absence. -/
def resolveOperationId (sourceId : Option String) (m : HttpMethod) (path : String) : String :=
  match sourceId with
  | some s => if s ≠ "" then s else generateOperationId m path
  | none => generateOperationId m path

/-- The record pushed by the loop body of `extractOperations`. -/
def mkApiOperation (path : String) (item : PathItem) (m : HttpMethod)
    (operation : OperationObject) : ApiOperation :=
  { operationId := resolveOperationId operation.operationId m path
    method := m
    path := path
    summary := operation.summary
    description := operation.description
    tags := operation.tags
    parameters := mergeParameters item.parameters operation.parameters
    requestBody := operation.requestBody
    responses := operation.responses }

/-- `extractOperations(doc)`: for every declared path, for each of the
seven valid methods present on that path item, emit one flattened
operation. -/
def extractOperations (doc : OpenApiDocument) : List ApiOperation :=
  doc.paths.flatMap fun pr =>
    match pr.2 with
    | none => []
    | some item =>
      VALID_METHODS.filterMap fun m =>
        (methodField item m).map (mkApiOperation pr.1 item m)

/-! ## RequestBuilder (src/unnamed/part_001: buildRequestUrl, buildHeaders) -/

/-- `buildRequestUrl(baseUrl, path, pathParams, queryParams)`, translated
line by line: for each `pathParams` entry, `path.replace` (first
occurrence only) of the literal `\x7bkey\x7d` by the percent-encoded
value; the query string from the non-empty `queryParams` entries in
insertion order; one trailing slash stripped from the base; a leading
slash ensured on the path. -/
def buildRequestUrl (baseUrl path : String) (pathParams queryParams : StrMap) : String :=
  let resolvedPath :=
    pathParams.foldl
      (fun acc kv => replaceFirst acc ("\x7b" ++ kv.1 ++ "\x7d") (encodeURIComponent kv.2))
      path
  let queryEntries := queryParams.filter fun kv => kv.2 ≠ ""
  let resolvedPath :=
    if queryEntries.length > 0 then
      resolvedPath ++ "?" ++
        String.intercalate "&"
          (queryEntries.map fun kv => encodeURIComponent kv.1 ++ "=" ++ encodeURIComponent kv.2)
    else resolvedPath
  let normalizedBase := if endsWithSlash baseUrl then dropLastChar baseUrl else baseUrl
  let normalizedPath := if startsWithSlash resolvedPath then resolvedPath else "/" ++ resolvedPath
  normalizedBase ++ normalizedPath

/-- `buildHeaders(operation, headerParams, defaultHeaders, body)`:
default headers first, then the header parameters with a non-empty
value, then `headers[CT] = headers[CT] || json` when the body is neither
undefined (`none`) nor null. -/
def buildHeaders (_operation : ApiOperation) (headerParams defaultHeaders : StrMap)
    (body : Option JsVal) : StrMap :=
  let headers := mAssign [] defaultHeaders
  let headers :=
    headerParams.foldl
      (fun acc kv => if kv.2 ≠ "" then assocSet acc kv.1 kv.2 else acc)
      headers
  match body with
  | some v =>
    if ¬ v.isNullVal then
      assocSet headers "Content-Type"
        (match lookupStr headers "Content-Type" with
         | some s => if s ≠ "" then s else "application/json"
         | none => "application/json")
    else headers
  | none => headers

/-! ## ExecutionEngine (src/unnamed/part_001: executeRequest, executeOperation)

The asynchronous `executeRequest` is modelled by classifying an
explicitly given fetch outcome: the fetch either resolved to a response
(whose body text has been read), was aborted (by the timeout timer or by
the external cancellation signal — both surface to the `catch` block as
the same `AbortError`), or rejected with some other error. -/

structure RequestConfig where
  method : HttpMethod
  url : String
  headers : StrMap
  body : Option String
  deriving Repr, DecidableEq

inductive BodyData where
  | jsonData (v : JsVal)
  | textData (s : String)

structure ResponseData where
  statusCode : Nat
  statusText : String
  headers : StrMap
  body : BodyData
  responseTimeMs : Nat

structure ExecutionResult where
  success : Bool
  response : Option ResponseData
  error : Option String

/-- A JS error value as the `catch` block inspects it. -/
structure JsError where
  name : String
  message : String
  deriving Repr, DecidableEq

/-- The `AbortError` produced at the transport layer when the fetch is
aborted; the timeout timer and the external cancellation signal abort
the same controller and produce the same error value. -/
def abortErrorJs : JsError := { name := "AbortError", message := "The operation was aborted." }

/-- The `SyntaxError` thrown by `response.json()` on a malformed body
(its exact message is engine-dependent; only its content matters here,
never its wording). -/
def jsonSyntaxError : JsError := { name := "SyntaxError", message := "Unexpected token in JSON" }

/-- The remediation message built for connectivity failures. -/
def networkErrorMessage (url : String) : String :=
  "Network error: Unable to connect to " ++ url ++
  "\n\nPossible causes:\n1. Server is not running at the configured base URL\n2. CORS is not enabled on the server\n3. Network connectivity issue"

/-- The `catch` block of `executeRequest`, translated clause by clause. -/
def catchClause (config : RequestConfig) (e : JsError) : ExecutionResult :=
  if e.name = "AbortError" ∨ containsSub e.message "abort" then
    { success := false, response := none, error := some "Request timeout or cancelled" }
  else if containsSub e.message "NetworkError" ∨ containsSub e.message "Failed to fetch" then
    { success := false, response := none, error := some (networkErrorMessage config.url) }
  else
    { success := false, response := none, error := some e.message }

inductive AbortCause where
  | timedOut
  | cancelled
  deriving Repr, DecidableEq

/-- What the awaited fetch did. -/
structure FetchResponse where
  status : Nat
  statusText : String
  headers : StrMap
  bodyText : String

inductive FetchOutcome where
  | gotResponse (r : FetchResponse)
  | aborted (cause : AbortCause)
  | rejectedWith (e : JsError)
  | rejectedNonError

/-- `response.ok`: status in the range 200–299. -/
def respOk (status : Nat) : Bool := 200 ≤ status ∧ status ≤ 299

/-- `response.headers.get(k)` is case-insensitive. -/
def headerGet (m : StrMap) (k : String) : Option String :=
  (m.find? fun kv => asciiLower kv.1 == asciiLower k).map fun kv => kv.2

/-- `executeRequest(config, options)` given the fetch outcome and the
elapsed wall-clock milliseconds: parse the body as JSON when the
response declares a JSON content type (a parse failure throws into the
`catch` block), classify success by `response.ok`; any abort yields the
single timeout-or-cancelled failure; other rejections are classified by
their message. -/
def executeRequest (config : RequestConfig) (outcome : FetchOutcome)
    (elapsedMs : Nat) : ExecutionResult :=
  match outcome with
  | .gotResponse r =>
    let contentType := (headerGet r.headers "content-type").getD ""
    if containsSub contentType "application/json" then
      match jsonParse r.bodyText with
      | some v =>
        { success := respOk r.status
          response := some
            { statusCode := r.status, statusText := r.statusText, headers := r.headers
              body := .jsonData v, responseTimeMs := elapsedMs }
          error := none }
      | none => catchClause config jsonSyntaxError
    else
      { success := respOk r.status
        response := some
          { statusCode := r.status, statusText := r.statusText, headers := r.headers
            body := .textData r.bodyText, responseTimeMs := elapsedMs }
        error := none }
  | .aborted _cause => catchClause config abortErrorJs
  | .rejectedWith e => catchClause config e
  | .rejectedNonError =>
    { success := false, response := none, error := some "Unknown error occurred" }

/-- The parameter bag accepted by `executeOperation` (absent TS fields
are the empty record / `none`). -/
structure OpParams where
  path : StrMap
  query : StrMap
  header : StrMap
  body : Option JsVal

structure OpOptions where
  timeout : Option Nat
  defaultHeaders : StrMap
  useProxy : Bool

/-- The synchronous part of `executeOperation(baseUrl, operation,
params, options)`: either the fail-fast result returned before any
network activity (`Sum.inl`), or the `RequestConfig` it passes on to
`executeRequest` (`Sum.inr`). -/
def executeOperationStep (baseUrl : String) (operation : ApiOperation)
    (params : OpParams) (options : OpOptions) : Sum ExecutionResult RequestConfig :=
  if baseUrl = "" ∨ jsTrim baseUrl = "" then
    .inl { success := false, response := none,
           error := some "Base URL is empty. Please configure an API URL." }
  else
    let url := buildRequestUrl baseUrl operation.path params.path params.query
    let headers := buildHeaders operation params.header options.defaultHeaders params.body
    .inr
      { method := operation.method
        url := url
        headers := headers
        body :=
          match params.body with
          | some v => if jsTruthy v then some (jsonStringify v) else none
          | none => none }

/-! ## CryptoVault (src/src/services/cryptoVault.ts)

The WebCrypto primitives are idealised: PBKDF2-SHA256 (100,000
iterations) is collision-free on `(password, salt)`, so a derived key is
modelled as the pair itself; AES-GCM authenticated encryption returns
the plaintext exactly when decryption uses the key and nonce it was
produced with and fails authentication otherwise.  The
`JSON.stringify`/`JSON.parse` round-trip on the record of sensitive
string fields is modelled as the identity embedding, so an ideal
ciphertext carries the record directly. -/

/-- A key derived by `deriveKey(password, salt)` (PBKDF2 idealised as
injective). -/
structure DerivedKey where
  password : String
  salt : List Nat
  deriving Repr, DecidableEq

def deriveKey (password : String) (salt : List Nat) : DerivedKey :=
  { password := password, salt := salt }

/-- An ideal AES-GCM ciphertext: it remembers the key and nonce it was
sealed with and the serialized record it protects. -/
structure IdealCiphertext where
  sealedKey : DerivedKey
  sealedIv : List Nat
  plain : List (String × String)
  deriving Repr, DecidableEq

/-- `EncryptedData = { salt, iv, ciphertext }`. -/
structure EncryptedData where
  salt : List Nat
  iv : List Nat
  ciphertext : IdealCiphertext
  deriving Repr, DecidableEq

/-- `encrypt(data, password)` with the freshly drawn random salt and
12-byte nonce passed explicitly: derive the key from the password and
the salt and seal the serialized record. -/
def encrypt (data : List (String × String)) (password : String)
    (salt iv : List Nat) : EncryptedData :=
  { salt := salt, iv := iv
    ciphertext := { sealedKey := deriveKey password salt, sealedIv := iv, plain := data } }

/-- `decrypt(encryptedData, password)`: derive a key from the supplied
password and the stored salt and attempt authenticated decryption; any
authentication failure surfaces as the single generic error. -/
def decrypt (encryptedData : EncryptedData) (password : String) :
    Except String (List (String × String)) :=
  let key := deriveKey password encryptedData.salt
  if key = encryptedData.ciphertext.sealedKey ∧ encryptedData.iv = encryptedData.ciphertext.sealedIv then
    .ok encryptedData.ciphertext.plain
  else
    .error "Invalid master password"

inductive AuthType where
  | noAuth | apiKey | basic
  deriving Repr, DecidableEq

/-- The record persisted at rest (`StoredCredential`). -/
structure StoredCredential where
  id : String
  schemaTitle : String
  name : String
  baseUrl : String
  authType : AuthType
  encryptedData : EncryptedData
  createdAt : Nat
  deriving Repr, DecidableEq

/-- The plaintext form (`DecryptedCredential`). -/
structure DecryptedCredential where
  id : String
  schemaTitle : String
  name : String
  baseUrl : String
  authType : AuthType
  apiKey : Option String
  username : Option String
  password : Option String
  deriving Repr, DecidableEq

/-- The vault state: the in-memory session cache of decrypted
credentials (`credentialCache`) and the persistent IndexedDB store, both
keyed by credential id. -/
structure VaultState where
  cache : List (String × DecryptedCredential)
  store : List (String × StoredCredential)

/-- `getCredential(id, masterPassword)` as a state transformer: return
the cached plaintext if present; otherwise load the stored record
(absence is a `none` result, not an error), decrypt it with the
supplied password (propagating the decryption error), cache and return
it. -/
def getCredential (st : VaultState) (id masterPassword : String) :
    Except String (Option DecryptedCredential × VaultState) :=
  match lookupStr st.cache id with
  | some cached => .ok (some cached, st)
  | none =>
    match lookupStr st.store id with
    | none => .ok (none, st)
    | some stored =>
      match decrypt stored.encryptedData masterPassword with
      | .error e => .error e
      | .ok decrypted =>
        let credential : DecryptedCredential :=
          { id := stored.id
            schemaTitle := stored.schemaTitle
            name := stored.name
            baseUrl := stored.baseUrl
            authType := stored.authType
            apiKey := lookupStr decrypted "apiKey"
            username := lookupStr decrypted "username"
            password := lookupStr decrypted "password" }
        .ok (some credential, { st with cache := assocSet st.cache id credential })

/-! ## MetadataStore (src/unnamed/part_004: bookmarks) -/

structure BookmarkParams where
  path : StrMap
  query : StrMap
  header : StrMap
  body : Option JsVal
  spaceId : Option String

structure Bookmark where
  id : String
  name : String
  description : Option String
  instanceId : String
  operationId : String
  path : String
  method : HttpMethod
  parameters : BookmarkParams
  tags : List String
  createdAt : Nat
  updatedAt : Nat
  lastUsedAt : Option Nat
  useCount : Nat

/-- `recordBookmarkUsage(id)` over the bookmark store, the current
`Date.now()` passed explicitly: when the id exists, increment
`useCount`, set `lastUsedAt` and `updatedAt` to now and store the
record back; otherwise do nothing. -/
def recordBookmarkUsage (bookmarksStore : List (String × Bookmark)) (id : String)
    (now : Nat) : List (String × Bookmark) :=
  match lookupStr bookmarksStore id with
  | none => bookmarksStore
  | some bookmark =>
    assocSet bookmarksStore id
      { bookmark with useCount := bookmark.useCount + 1, lastUsedAt := some now, updatedAt := now }

/-! ## Claim-side specification functions

The following functions transcribe claim sentences (not the source);
each is compared against the corresponding source-side function by a
refinement theorem or refuted by a counterexample. -/

/-- Claim C4 as stated: replace EACH occurrence of every placeholder. -/
def substituteAllSpec (template : String) (pathParams : StrMap) : String :=
  pathParams.foldl
    (fun acc kv => replaceAll acc ("\x7b" ++ kv.1 ++ "\x7d") (encodeURIComponent kv.2))
    template

/-- Claim C4: the query string of the defined, non-empty entries, keys
and values percent-encoded, joined with ampersands in insertion order. -/
def queryStringSpec (queryParams : StrMap) : String :=
  String.intercalate "&"
    ((queryParams.filter fun kv => kv.2 ≠ "").map fun kv =>
      encodeURIComponent kv.1 ++ "=" ++ encodeURIComponent kv.2)

/-- Claim C4, transcribed as stated (each `\x7bname\x7d` occurrence
replaced). -/
def buildRequestUrlSpec (base template : String) (pathParams queryParams : StrMap) : String :=
  let path := substituteAllSpec template pathParams
  let withQuery :=
    if (queryParams.filter fun kv => kv.2 ≠ "") = [] then path
    else path ++ "?" ++ queryStringSpec queryParams
  let strippedBase := if endsWithSlash base then dropLastChar base else base
  strippedBase ++ (if startsWithSlash withQuery then withQuery else "/" ++ withQuery)

/-- Claim C4 amended: only the FIRST occurrence of each placeholder is
replaced. -/
def substituteFirstSpec (template : String) (pathParams : StrMap) : String :=
  pathParams.foldl
    (fun acc kv => replaceFirst acc ("\x7b" ++ kv.1 ++ "\x7d") (encodeURIComponent kv.2))
    template

/-- Claim C4 amended, transcribed. -/
def buildRequestUrlSpecAmended (base template : String) (pathParams queryParams : StrMap) : String :=
  let path := substituteFirstSpec template pathParams
  let withQuery :=
    if (queryParams.filter fun kv => kv.2 ≠ "") = [] then path
    else path ++ "?" ++ queryStringSpec queryParams
  let strippedBase := if endsWithSlash base then dropLastChar base else base
  strippedBase ++ (if startsWithSlash withQuery then withQuery else "/" ++ withQuery)

/-- Claims C5: default headers overlaid with the non-empty header
parameters. -/
def mergedHeadersSpec (headerParams defaultHeaders : StrMap) : StrMap :=
  mAssign (mAssign [] defaultHeaders) (headerParams.filter fun kv => kv.2 ≠ "")

/-- Claim C5 as stated: `Content-Type: application/json` is added only
when a body is present and NO `Content-Type` entry was set by either
layer; an explicit entry is never overridden. -/
def buildHeadersSpec (_operation : ApiOperation) (headerParams defaultHeaders : StrMap)
    (body : Option JsVal) : StrMap :=
  let merged := mergedHeadersSpec headerParams defaultHeaders
  match body with
  | none => merged
  | some v =>
    if v.isNullVal then merged
    else
      match lookupStr merged "Content-Type" with
      | some _ => merged
      | none => assocSet merged "Content-Type" "application/json"

/-- Claim C5 amended: an entry whose value is the empty string (which
can only come from the default-header layer) is treated as unset and
replaced by `application/json`; a non-empty entry is never
overridden. -/
def buildHeadersSpecAmended (_operation : ApiOperation) (headerParams defaultHeaders : StrMap)
    (body : Option JsVal) : StrMap :=
  let merged := mergedHeadersSpec headerParams defaultHeaders
  match body with
  | none => merged
  | some v =>
    if v.isNullVal then merged
    else
      match lookupStr merged "Content-Type" with
      | some s =>
        if s = "" then assocSet merged "Content-Type" "application/json" else merged
      | none => assocSet merged "Content-Type" "application/json"

/-- Claim C6 amended: the operation id resulting from one method slot —
the source id when present and non-empty, otherwise the upper-cased
method, an underscore, and the path with every non-alphanumeric
character replaced by an underscore. -/
def specOperationId (sourceId : Option String) (m : HttpMethod) (path : String) : String :=
  let synthesized :=
    methodUpper m ++ "_" ++
      String.mk (path.toList.map fun c => if c.isAlphanum then c else Char.ofNat 95)
  match sourceId with
  | none => synthesized
  | some s => if s = "" then synthesized else s

/-- Claim C6 amended: the operation ids emitted for one path entry. -/
def specPathIds (path : String) (item : PathItem) : List String :=
  VALID_METHODS.filterMap fun m =>
    (methodField item m).map fun op => specOperationId op.operationId m path

/-- Claim C6 amended: all operation ids of a loaded document in emission
order. -/
def operationIdsSpec (doc : OpenApiDocument) : List String :=
  doc.paths.flatMap fun pr =>
    match pr.2 with
    | none => []
    | some item => specPathIds pr.1 item

/-- The body carried by the result of a successfully classified
response (claim C3 amended): parsed when the response declares a JSON
content type, raw text otherwise. -/
def parsedBody (r : FetchResponse) : BodyData :=
  if containsSub ((headerGet r.headers "content-type").getD "") "application/json" then
    match jsonParse r.bodyText with
    | some v => .jsonData v
    | none => .textData r.bodyText
  else .textData r.bodyText

/-! ## Helper lemmas about the association-list semantics -/

/-- Keys of an association list. -/
def keysOf {α : Type} (m : List (String × α)) : List String := m.map Prod.fst

theorem comp_update_pred {α : Type} (k k₂ : String) (v : α) :
    ((fun kv : String × α => kv.1 == k₂) ∘
      fun kv : String × α => if kv.1 == k then (k, v) else kv) =
    fun kv : String × α => kv.1 == k₂ := by
  funext kv
  by_cases hb : kv.1 == k
  · have hk : kv.1 = k := by simpa using hb
    simp [Function.comp, hb, hk]
  · simp [Function.comp, hb]

theorem lookupStr_assocSet_self {α : Type} (m : List (String × α)) (k : String) (v : α) :
    lookupStr (assocSet m k v) k = some v := by
  unfold assocSet lookupStr
  split
  case isTrue h =>
    rw [List.find?_map, comp_update_pred]
    rcases Option.isSome_iff_exists.mp h with ⟨e, he⟩
    have hpe : e.1 = k := by simpa using List.find?_some he
    simp [he, hpe]
  case isFalse h =>
    have hnone : m.find? (fun kv => kv.1 == k) = none :=
      Option.not_isSome_iff_eq_none.mp h
    rw [List.find?_append, hnone]
    simp

theorem lookupStr_assocSet_ne {α : Type} (m : List (String × α)) (k : String) (v : α)
    (k₂ : String) (hne : k₂ ≠ k) :
    lookupStr (assocSet m k v) k₂ = lookupStr m k₂ := by
  unfold assocSet lookupStr
  split
  · rw [List.find?_map, comp_update_pred]
    cases hf : m.find? (fun kv => kv.1 == k₂) with
    | none => simp [hf]
    | some e =>
      have hpe : e.1 = k₂ := by simpa using List.find?_some hf
      have hb : (e.1 == k) = false := by
        simp [hpe]
        exact hne
      simp [hf, hb, hpe, hne]
  · rw [List.find?_append]
    have hk : ((k, v).1 == k₂) = false := by
      simp
      exact fun h => hne h.symm
    simp [hk]

theorem mem_assocSet {α : Type} {m : List (String × α)} {k : String} {v : α}
    {kv : String × α} (h : kv ∈ assocSet m k v) : kv ∈ m ∨ kv = (k, v) := by
  unfold assocSet at h
  split at h
  · rcases List.mem_map.mp h with ⟨kv0, hkv0, heq⟩
    by_cases hb : kv0.1 == k
    · right
      simp [hb] at heq
      exact heq.symm
    · left
      simp [hb] at heq
      exact heq ▸ hkv0
  · rcases List.mem_append.mp h with h1 | h2
    · exact Or.inl h1
    · exact Or.inr (by simpa using h2)

theorem keysOf_map_update {α : Type} (m : List (String × α)) (k : String) (v : α) :
    keysOf (m.map fun kv => if kv.1 == k then (k, v) else kv) = keysOf m := by
  unfold keysOf
  rw [List.map_map]
  apply List.map_congr_left
  intro kv _
  by_cases hb : kv.1 == k
  · have hk : kv.1 = k := by simpa using hb
    simp [Function.comp, hb, hk]
  · simp [Function.comp, hb]

theorem not_mem_keysOf_of_find_none {α : Type} {m : List (String × α)} {k : String}
    (hs : ¬ (m.find? fun kv => kv.1 == k).isSome = true) : k ∉ keysOf m := by
  intro hmem
  rcases List.mem_map.mp hmem with ⟨kv, hkv, hfst⟩
  exact hs (List.find?_isSome.mpr ⟨kv, hkv, by simp [hfst]⟩)

theorem keysOf_nodup_assocSet {α : Type} (m : List (String × α)) (k : String) (v : α)
    (h : (keysOf m).Nodup) : (keysOf (assocSet m k v)).Nodup := by
  unfold assocSet
  split
  case isTrue hs =>
    rw [keysOf_map_update]
    exact h
  case isFalse hs =>
    have hk : k ∉ keysOf m := not_mem_keysOf_of_find_none hs
    have : keysOf (m ++ [(k, v)]) = keysOf m ++ [k] := by simp [keysOf]
    rw [this]
    simp only [List.nodup_append, List.nodup_cons, List.not_mem_nil, not_false_iff,
      List.nodup_nil, and_true, true_and]
    refine ⟨h, ?_⟩
    intro a hmem
    simp only [List.mem_singleton]
    intro hak
    exact hk (hak ▸ hmem)

theorem assocSet_of_lookup_eq {α : Type} (m : List (String × α)) (k : String) (v : α)
    (hnd : (keysOf m).Nodup) (hl : lookupStr m k = some v) : assocSet m k v = m := by
  have hfind : ∃ kv, m.find? (fun kv => kv.1 == k) = some kv ∧ kv.2 = v := by
    unfold lookupStr at hl
    rcases Option.map_eq_some'.mp hl with ⟨kv, hkv, hv⟩
    exact ⟨kv, hkv, hv⟩
  rcases hfind with ⟨kv, hkv, hv⟩
  have hmem : kv ∈ m := List.mem_of_find?_eq_some hkv
  have hpred : kv.1 = k := by
    have := List.find?_some hkv
    simpa using this
  unfold assocSet
  rw [if_pos (by simp [hkv])]
  conv_rhs => rw [← List.map_id m]
  apply List.map_congr_left
  intro kv2 hkv2
  by_cases hb : kv2.1 == k
  · have hk2 : kv2.1 = k := by simpa using hb
    have heq : kv2 = kv := by
      apply List.inj_on_of_nodup_map (f := Prod.fst) hnd hkv2 hmem
      rw [hk2, hpred]
    simp only [hb, if_true, id]
    subst heq
    rw [← hpred, ← hv]
  · simp [hb]

/-! ## Claim theorems -/

/-- C1: for every map of sensitive fields and every password, encrypting
then decrypting with the same password returns exactly the original
fields, and decrypting with any other password fails with the single
generic invalid-password error and returns no data. -/
theorem vault_roundtrip (data : List (String × String)) (password : String)
    (salt iv : List Nat) (other : String) :
    decrypt (encrypt data password salt iv) password = .ok data ∧
    (other ≠ password →
      decrypt (encrypt data password salt iv) other = .error "Invalid master password") := by
  constructor
  · simp [decrypt, encrypt, deriveKey]
  · intro hne
    simp [decrypt, encrypt, deriveKey, DerivedKey.mk.injEq, hne]

/-- C1 witness: the round trip at `\x7bapiKey:"k"\x7d` with password
`"p"`, and the failure at the wrong password `"q"`. -/
theorem vault_roundtrip_witness :
    ("q" : String) ≠ "p" ∧
    decrypt (encrypt [("apiKey", "k")] "p" [0] [1]) "p" = .ok [("apiKey", "k")] ∧
    decrypt (encrypt [("apiKey", "k")] "p" [0] [1]) "q" = .error "Invalid master password" :=
  ⟨by decide, (vault_roundtrip [("apiKey", "k")] "p" [0] [1] "q").1,
    (vault_roundtrip [("apiKey", "k")] "p" [0] [1] "q").2 (by decide)⟩

/-- C2 counterexample: a timeout-caused abort and a cancellation-caused
abort produce literally identical results — the same error message
`"Request timeout or cancelled"` — so the two failure messages are not
distinguishable in wording, refuting the claim. -/
theorem abort_messages_counterexample :
    executeRequest ⟨HttpMethod.get, "https://example.com/x", [], none⟩
        (.aborted .timedOut) 3 =
      executeRequest ⟨HttpMethod.get, "https://example.com/x", [], none⟩
        (.aborted .cancelled) 3 ∧
    (executeRequest ⟨HttpMethod.get, "https://example.com/x", [], none⟩
        (.aborted .timedOut) 3).error = some "Request timeout or cancelled" ∧
    (executeRequest ⟨HttpMethod.get, "https://example.com/x", [], none⟩
        (.aborted .timedOut) 3).response = none :=
  ⟨rfl, rfl, rfl⟩

/-- C2 amended: a timeout firing and an external cancellation signal
both yield a failure with no response, carrying the one shared error
message `"Request timeout or cancelled"` — the wording is identical for
the two causes, not distinguishable. -/
theorem abort_both_fail_same_message (config : RequestConfig) (cause : AbortCause)
    (elapsedMs : Nat) :
    executeRequest config (.aborted cause) elapsedMs =
      { success := false, response := none, error := some "Request timeout or cancelled" } := by
  rfl

/-- C8: `executeOperation` with an empty or whitespace-only base URL
returns the fail-fast failure result (`Sum.inl`: no request config is
ever built, hence no network call), with a descriptive error and no
response. -/
theorem executeOperation_blank_baseUrl (baseUrl : String) (operation : ApiOperation)
    (params : OpParams) (options : OpOptions) (h : jsTrim baseUrl = "") :
    executeOperationStep baseUrl operation params options =
      .inl { success := false, response := none,
             error := some "Base URL is empty. Please configure an API URL." } := by
  unfold executeOperationStep
  rw [if_pos (Or.inr h)]

/-- C8 witness: the fail-fast result at the whitespace-only base URL
`"   "`. -/
theorem executeOperation_blank_baseUrl_witness :
    jsTrim "   " = "" ∧
    executeOperationStep "   " ⟨"op1", .get, "/x", none, none, [], [], none, none⟩
        ⟨[], [], [], none⟩ ⟨none, [], false⟩ =
      .inl { success := false, response := none,
             error := some "Base URL is empty. Please configure an API URL." } :=
  ⟨by decide,
    executeOperation_blank_baseUrl "   " ⟨"op1", .get, "/x", none, none, [], [], none, none⟩
      ⟨[], [], [], none⟩ ⟨none, [], false⟩ (by decide)⟩

/-- C9: once a credential id is in the session cache, `getCredential`
returns the cached plaintext for every supplied password — the result
is independent of the password argument and no decryption (hence no
password verification) occurs. -/
theorem getCredential_cached_ignores_password (st : VaultState) (id p₁ p₂ : String)
    (c : DecryptedCredential) (hc : lookupStr st.cache id = some c) :
    getCredential st id p₁ = .ok (some c, st) ∧
    getCredential st id p₁ = getCredential st id p₂ := by
  unfold getCredential
  rw [hc]
  exact ⟨rfl, rfl⟩

/-- C9 witness: a cached credential is returned unchanged under two
different passwords. -/
theorem getCredential_cached_ignores_password_witness :
    lookupStr (VaultState.mk
        [("c1", ⟨"c1", "t", "n", "u", AuthType.apiKey, some "k", none, none⟩)] []).cache "c1" =
      some ⟨"c1", "t", "n", "u", AuthType.apiKey, some "k", none, none⟩ ∧
    getCredential
        ⟨[("c1", ⟨"c1", "t", "n", "u", AuthType.apiKey, some "k", none, none⟩)], []⟩
        "c1" "right-password" =
      .ok (some ⟨"c1", "t", "n", "u", AuthType.apiKey, some "k", none, none⟩,
        ⟨[("c1", ⟨"c1", "t", "n", "u", AuthType.apiKey, some "k", none, none⟩)], []⟩) ∧
    getCredential
        ⟨[("c1", ⟨"c1", "t", "n", "u", AuthType.apiKey, some "k", none, none⟩)], []⟩
        "c1" "right-password" =
      getCredential
        ⟨[("c1", ⟨"c1", "t", "n", "u", AuthType.apiKey, some "k", none, none⟩)], []⟩
        "c1" "wrong-password" :=
  ⟨rfl,
    (getCredential_cached_ignores_password
      ⟨[("c1", ⟨"c1", "t", "n", "u", AuthType.apiKey, some "k", none, none⟩)], []⟩
      "c1" "right-password" "wrong-password" _ rfl).1,
    (getCredential_cached_ignores_password
      ⟨[("c1", ⟨"c1", "t", "n", "u", AuthType.apiKey, some "k", none, none⟩)], []⟩
      "c1" "right-password" "wrong-password" _ rfl).2⟩

/-- C10: `recordBookmarkUsage` on an existing bookmark increments
`useCount` by one and sets both `lastUsedAt` and `updatedAt` to the
current time while leaving every other field (and every other stored
bookmark) unchanged, and is a no-op for a non-existent id. -/
theorem recordBookmarkUsage_spec (bookmarksStore : List (String × Bookmark))
    (id : String) (now : Nat) :
    (∀ b, lookupStr bookmarksStore id = some b →
      lookupStr (recordBookmarkUsage bookmarksStore id now) id =
        some { b with useCount := b.useCount + 1, lastUsedAt := some now, updatedAt := now } ∧
      ∀ j, j ≠ id →
        lookupStr (recordBookmarkUsage bookmarksStore id now) j = lookupStr bookmarksStore j) ∧
    (lookupStr bookmarksStore id = none →
      recordBookmarkUsage bookmarksStore id now = bookmarksStore) := by
  constructor
  · intro b hb
    unfold recordBookmarkUsage
    rw [hb]
    exact ⟨lookupStr_assocSet_self _ _ _, fun j hj => lookupStr_assocSet_ne _ _ _ j hj⟩
  · intro hnone
    unfold recordBookmarkUsage
    rw [hnone]

/-- C10 witness: one recorded usage at time 42 on a concrete bookmark
store. -/
theorem recordBookmarkUsage_spec_witness :
    lookupStr [("b1", (⟨"b1", "n", none, "inst", "op", "/p", .get,
        ⟨[], [], [], none, none⟩, [], 1, 1, none, 0⟩ : Bookmark))] "b1" =
      some ⟨"b1", "n", none, "inst", "op", "/p", .get, ⟨[], [], [], none, none⟩, [], 1, 1, none, 0⟩ ∧
    lookupStr
        (recordBookmarkUsage
          [("b1", ⟨"b1", "n", none, "inst", "op", "/p", .get,
            ⟨[], [], [], none, none⟩, [], 1, 1, none, 0⟩)] "b1" 42) "b1" =
      some ⟨"b1", "n", none, "inst", "op", "/p", .get, ⟨[], [], [], none, none⟩, [], 1, 42, some 42, 1⟩ :=
  ⟨rfl,
    ((recordBookmarkUsage_spec
        [("b1", ⟨"b1", "n", none, "inst", "op", "/p", .get,
          ⟨[], [], [], none, none⟩, [], 1, 1, none, 0⟩)] "b1" 42).1 _ rfl).1⟩

/-- Folding the header-parameter loop equals overlaying the filtered
entries. -/
theorem foldl_filter_assign (hp : StrMap) (acc : StrMap) :
    hp.foldl (fun acc kv => if kv.2 ≠ "" then assocSet acc kv.1 kv.2 else acc) acc =
      mAssign acc (hp.filter fun kv => kv.2 ≠ "") := by
  induction hp generalizing acc with
  | nil => rfl
  | cons hd tl ih =>
    by_cases h : hd.2 = ""
    · have h1 : (if hd.2 ≠ "" then assocSet acc hd.1 hd.2 else acc) = acc :=
        if_neg (by simp [h])
      have h2 : (hd :: tl).filter (fun kv => kv.2 ≠ "") = tl.filter (fun kv => kv.2 ≠ "") := by
        simp [List.filter_cons, h]
      rw [List.foldl_cons, h1, h2]
      exact ih acc
    · have h1 : (if hd.2 ≠ "" then assocSet acc hd.1 hd.2 else acc) = assocSet acc hd.1 hd.2 :=
        if_pos h
      have h2 : (hd :: tl).filter (fun kv => kv.2 ≠ "") =
          hd :: tl.filter (fun kv => kv.2 ≠ "") := by
        simp [List.filter_cons, h]
      rw [List.foldl_cons, h1, h2]
      unfold mAssign
      rw [List.foldl_cons]
      exact ih _

/-- `mAssign` preserves key distinctness. -/
theorem keysOf_nodup_mAssign {α : Type} (src m : List (String × α))
    (h : (keysOf m).Nodup) : (keysOf (mAssign m src)).Nodup := by
  induction src generalizing m with
  | nil => exact h
  | cons hd tl ih =>
    exact ih _ (keysOf_nodup_assocSet _ _ _ h)

/-- C4 counterexample: with the template `/\x7bid\x7d/\x7bid\x7d` and
`id = "a"`, the source replaces only the first placeholder occurrence,
while the claim (each occurrence replaced, transcribed as
`buildRequestUrlSpec`) demands both replaced. -/
theorem buildRequestUrl_counterexample :
    buildRequestUrl "https://x" "/\x7bid\x7d/\x7bid\x7d" [("id", "a")] [] ≠
      buildRequestUrlSpec "https://x" "/\x7bid\x7d/\x7bid\x7d" [("id", "a")] [] ∧
    buildRequestUrl "https://x" "/\x7bid\x7d/\x7bid\x7d" [("id", "a")] [] =
      "https://x/a/\x7bid\x7d" ∧
    buildRequestUrlSpec "https://x" "/\x7bid\x7d/\x7bid\x7d" [("id", "a")] [] =
      "https://x/a/a" :=
  ⟨by decide, by decide, by decide⟩

/-- C4 amended: `buildRequestUrl` replaces the FIRST occurrence of each
`\x7bname\x7d` placeholder with the percent-encoded value (missing
parameters leave the placeholder untouched), appends the query string of
the non-empty entries percent-encoded and joined with ampersands in
insertion order, strips one trailing slash from the base and ensures a
separating slash before the path — together with the concrete round-trip
examples from the claim. -/
theorem buildRequestUrl_spec (base template : String) (pathParams queryParams : StrMap) :
    buildRequestUrl base template pathParams queryParams =
      buildRequestUrlSpecAmended base template pathParams queryParams ∧
    buildRequestUrl "https://api.example.com" "/items/\x7bid\x7d" [("id", "hello world")] [] =
      "https://api.example.com/items/hello%20world" ∧
    buildRequestUrl "https://x" "/items" [] [("page", "1"), ("filter", "")] =
      "https://x/items?page=1" := by
  refine ⟨?_, by decide, by decide⟩
  unfold buildRequestUrl buildRequestUrlSpecAmended substituteFirstSpec queryStringSpec
  cases hq : queryParams.filter fun kv => kv.2 ≠ "" with
  | nil => simp [hq]
  | cons hd tl => simp [hq]

/-- C5 counterexample: a `Content-Type` entry set to the empty string by
the default-header layer counts as "already set" for the claim
(transcribed as `buildHeadersSpec`), yet the source replaces it with
`application/json` when a body is present. -/
theorem buildHeaders_counterexample :
    buildHeaders ⟨"op1", .get, "/x", none, none, [], [], none, none⟩
        [] [("Content-Type", "")] (some (.jsStr "x")) ≠
      buildHeadersSpec ⟨"op1", .get, "/x", none, none, [], [], none, none⟩
        [] [("Content-Type", "")] (some (.jsStr "x")) ∧
    buildHeaders ⟨"op1", .get, "/x", none, none, [], [], none, none⟩
        [] [("Content-Type", "")] (some (.jsStr "x")) =
      [("Content-Type", "application/json")] ∧
    buildHeadersSpec ⟨"op1", .get, "/x", none, none, [], [], none, none⟩
        [] [("Content-Type", "")] (some (.jsStr "x")) =
      [("Content-Type", "")] :=
  ⟨by decide, by decide, by decide⟩

/-- C5 amended: `buildHeaders` starts from the default headers, overlays
only the non-empty header parameters, and sets
`Content-Type: application/json` exactly when a body is present and no
non-empty `Content-Type` was set by either layer; a NON-EMPTY explicit
`Content-Type` is never overridden (an empty-string one, possible only
via the default-header layer, is treated as unset and replaced) — with
the explicit-XML example from the claim. -/
theorem buildHeaders_spec (operation : ApiOperation) (headerParams defaultHeaders : StrMap)
    (body : Option JsVal) :
    buildHeaders operation headerParams defaultHeaders body =
      buildHeadersSpecAmended operation headerParams defaultHeaders body ∧
    buildHeaders ⟨"op1", .get, "/x", none, none, [], [], none, none⟩
        [("Content-Type", "application/xml")] [] (some (.jsObj [("any", .jsStr "body")])) =
      [("Content-Type", "application/xml")] := by
  refine ⟨?_, by decide⟩
  unfold buildHeaders buildHeadersSpecAmended mergedHeadersSpec
  dsimp only
  rw [foldl_filter_assign]
  have hnd : (keysOf (mAssign (mAssign ([] : StrMap) defaultHeaders)
      (headerParams.filter fun kv => kv.2 ≠ ""))).Nodup :=
    keysOf_nodup_mAssign _ _ (keysOf_nodup_mAssign _ _ (by simp [keysOf]))
  cases body with
  | none => rfl
  | some v =>
    dsimp only
    by_cases hnull : v.isNullVal
    · simp [hnull]
    · rw [if_pos (by simp [hnull]), if_neg hnull]
      cases hl : lookupStr (mAssign (mAssign ([] : StrMap) defaultHeaders)
          (headerParams.filter fun kv => kv.2 ≠ "")) "Content-Type" with
      | none => rfl
      | some s =>
        dsimp only
        by_cases hs : s = ""
        · rw [if_pos hs, if_neg (by simp [hs])]
        · rw [if_pos hs, if_neg hs]
          exact assocSet_of_lookup_eq _ _ _ hnd hl

/-- C3 counterexample: a 200 response declaring a JSON content type
whose body does not parse is classified as a failure WITH NO RESPONSE
(the `response.json()` rejection falls into the generic catch clause),
although the status is 2xx — refuting both "success iff 2xx" and "the
result still carries the full response". -/
theorem http_response_classification_counterexample :
    executeRequest ⟨HttpMethod.get, "https://example.com/x", [], none⟩
        (.gotResponse ⟨200, "OK", [("content-type", "application/json")], "oops"⟩) 5 =
      { success := false, response := none, error := some "Unexpected token in JSON" } ∧
    respOk 200 = true :=
  ⟨rfl, rfl⟩

/-- C3 amended: provided the body parses under its declared content type
(always the case for non-JSON content types), classification of a
received HTTP response is success iff the status is 2xx, the result
carries the full response (status, status text, headers, body, elapsed
time) and has no error field; a declared-JSON body that fails to parse
instead yields a failure-with-error carrying no response. -/
theorem http_response_classification (config : RequestConfig) (r : FetchResponse)
    (elapsedMs : Nat)
    (h : containsSub ((headerGet r.headers "content-type").getD "") "application/json" = true →
      (jsonParse r.bodyText).isSome = true) :
    (executeRequest config (.gotResponse r) elapsedMs).error = none ∧
    ((executeRequest config (.gotResponse r) elapsedMs).success = true ↔
      (200 ≤ r.status ∧ r.status ≤ 299)) ∧
    (executeRequest config (.gotResponse r) elapsedMs).response =
      some ⟨r.status, r.statusText, r.headers, parsedBody r, elapsedMs⟩ := by
  unfold executeRequest parsedBody
  dsimp only
  by_cases hct : containsSub ((headerGet r.headers "content-type").getD "") "application/json"
  · rw [if_pos hct, if_pos hct]
    rcases Option.isSome_iff_exists.mp (h hct) with ⟨v, hv⟩
    rw [hv]
    refine ⟨rfl, ?_, rfl⟩
    simp [respOk]
  · rw [if_neg hct, if_neg hct]
    refine ⟨rfl, ?_, rfl⟩
    simp [respOk]

/-- C3 witness: a plain-text 404 keeps its full response, has no error
field and is not successful. -/
theorem http_response_classification_witness :
    (containsSub ((headerGet ([("content-type", "text/plain")] : StrMap)
        "content-type").getD "") "application/json" = true →
      (jsonParse "nope").isSome = true) ∧
    (executeRequest ⟨HttpMethod.get, "https://example.com/x", [], none⟩
        (.gotResponse ⟨404, "Not Found", [("content-type", "text/plain")], "nope"⟩) 7).error =
      none ∧
    ((executeRequest ⟨HttpMethod.get, "https://example.com/x", [], none⟩
        (.gotResponse ⟨404, "Not Found", [("content-type", "text/plain")], "nope"⟩) 7).success =
        true ↔ (200 ≤ 404 ∧ 404 ≤ 299)) ∧
    (executeRequest ⟨HttpMethod.get, "https://example.com/x", [], none⟩
        (.gotResponse ⟨404, "Not Found", [("content-type", "text/plain")], "nope"⟩) 7).response =
      some ⟨404, "Not Found", [("content-type", "text/plain")],
        parsedBody ⟨404, "Not Found", [("content-type", "text/plain")], "nope"⟩, 7⟩ :=
  ⟨by decide,
    http_response_classification ⟨HttpMethod.get, "https://example.com/x", [], none⟩
      ⟨404, "Not Found", [("content-type", "text/plain")], "nope"⟩ 7 (by decide)⟩

/-- C6 counterexample: two paths carrying the same explicit source
`operationId` are emitted verbatim — the extracted operation list has a
duplicated `operationId`, refuting uniqueness. -/
theorem operationId_unique_counterexample :
    ¬ ((extractOperations
        ⟨[("/a", some ⟨some ⟨some "x", none, none, [], [], none, none⟩,
            none, none, none, none, none, none, []⟩),
          ("/b", some ⟨some ⟨some "x", none, none, [], [], none, none⟩,
            none, none, none, none, none, none, []⟩)]⟩).map
      (fun o => o.operationId)).Nodup := by
  decide

/-- The source sanitisation ranges coincide with `Char.isAlphanum`. -/
theorem sanitizeChar_eq (c : Char) :
    (if (48 ≤ c.toNat ∧ c.toNat ≤ 57) ∨ (65 ≤ c.toNat ∧ c.toNat ≤ 90) ∨
        (97 ≤ c.toNat ∧ c.toNat ≤ 122) then c else Char.ofNat 95) =
    (if c.isAlphanum then c else Char.ofNat 95) := by
  have h : (c.isAlphanum = true) ↔
      ((48 ≤ c.toNat ∧ c.toNat ≤ 57) ∨ (65 ≤ c.toNat ∧ c.toNat ≤ 90) ∨
        (97 ≤ c.toNat ∧ c.toNat ≤ 122)) := by
    simp only [Char.isAlphanum, Char.isAlpha, Char.isDigit, Char.isUpper, Char.isLower,
      Bool.or_eq_true, Bool.and_eq_true, decide_eq_true_eq, ge_iff_le, Char.toNat,
      UInt32.le_def, BitVec.le_def]
    have e48 : (UInt32.toBitVec 48).toNat = 48 := rfl
    have e57 : (UInt32.toBitVec 57).toNat = 57 := rfl
    have e65 : (UInt32.toBitVec 65).toNat = 65 := rfl
    have e90 : (UInt32.toBitVec 90).toNat = 90 := rfl
    have e97 : (UInt32.toBitVec 97).toNat = 97 := rfl
    have e122 : (UInt32.toBitVec 122).toNat = 122 := rfl
    have ev : c.val.toBitVec.toNat = c.val.toNat := rfl
    omega
  by_cases hc : c.isAlphanum
  · rw [if_pos (h.mp hc), if_pos hc]
  · rw [if_neg (fun hcon => hc (h.mpr hcon)), if_neg hc]

/-- The source id resolution equals the amended-claim id rule. -/
theorem resolveOperationId_eq_spec (sourceId : Option String) (m : HttpMethod) (p : String) :
    resolveOperationId sourceId m p = specOperationId sourceId m p := by
  have hsyn : generateOperationId m p =
      methodUpper m ++ "_" ++
        String.mk (p.toList.map fun c => if c.isAlphanum then c else Char.ofNat 95) := by
    unfold generateOperationId
    congr 1
    congr 1
    exact List.map_congr_left fun c _ => sanitizeChar_eq c
  unfold resolveOperationId specOperationId
  cases sourceId with
  | none => simpa using hsyn
  | some s =>
    by_cases hs : s = ""
    · simp only [hs, ite_true, if_neg (by simp : ¬ ("" : String) ≠ "")]
      simpa using hsyn
    · simp [hs]

/-- The operation ids produced for any method list over one path item
follow the amended-claim rule. -/
theorem filterMap_opIds (p : String) (item : PathItem) (ms : List HttpMethod) :
    (ms.filterMap fun m => (methodField item m).map (mkApiOperation p item m)).map
        (fun o => o.operationId) =
      ms.filterMap fun m =>
        (methodField item m).map fun op => specOperationId op.operationId m p := by
  induction ms with
  | nil => rfl
  | cons m tl ih =>
    cases hm : methodField item m with
    | none => simpa [List.filterMap_cons, hm] using ih
    | some op => simp [List.filterMap_cons, hm, ih, mkApiOperation, resolveOperationId_eq_spec]

/-- C6 amended: a missing (or empty) source `operationId` is synthesized
as the upper-cased method, an underscore, and the path with every
non-alphanumeric character replaced by an underscore; ids are emitted in
order with no deduplication (so uniqueness across the operations list is
not guaranteed when source ids repeat or synthesized ids collide): the
emitted operation ids are exactly those of the amended id rule, in
order. -/
theorem extractOperations_operationIds (doc : OpenApiDocument) :
    (extractOperations doc).map (fun o => o.operationId) = operationIdsSpec doc := by
  obtain ⟨paths⟩ := doc
  unfold extractOperations operationIdsSpec
  induction paths with
  | nil => rfl
  | cons hd tl ih =>
    simp only [List.flatMap_cons, List.map_append]
    refine congrArg₂ HAppend.hAppend ?_ ih
    cases hd.2 with
    | none => rfl
    | some item =>
      unfold specPathIds
      exact filterMap_opIds hd.1 item VALID_METHODS

/-- Every entry of the parameter map is stored under its own `in:name`
key. -/
theorem addParams_key_inv (ps : List ParamOrRef) (m : List (String × ParameterObject))
    (h : ∀ kv ∈ m, kv.1 = paramKey kv.2) :
    ∀ kv ∈ addParams m ps, kv.1 = paramKey kv.2 := by
  induction ps generalizing m with
  | nil => exact h
  | cons x tl ih =>
    intro kv hkv
    unfold addParams at hkv
    rw [List.foldl_cons] at hkv
    refine ih _ ?_ kv hkv
    intro kv2 hkv2
    cases x with
    | ref s => exact h kv2 hkv2
    | param p =>
      dsimp only at hkv2
      by_cases hv : p.name ≠ "" ∧ p.paramIn ≠ ""
      · rw [if_pos hv] at hkv2
        rcases mem_assocSet hkv2 with hm | he
        · exact h kv2 hm
        · rw [he]
      · rw [if_neg hv] at hkv2
        exact h kv2 hkv2

/-- The parameter map keeps its keys distinct. -/
theorem addParams_keys_nodup (ps : List ParamOrRef) (m : List (String × ParameterObject))
    (h : (keysOf m).Nodup) : (keysOf (addParams m ps)).Nodup := by
  induction ps generalizing m with
  | nil => exact h
  | cons x tl ih =>
    unfold addParams
    rw [List.foldl_cons]
    refine ih _ ?_
    cases x with
    | ref s => exact h
    | param p =>
      dsimp only
      by_cases hv : p.name ≠ "" ∧ p.paramIn ≠ ""
      · rw [if_pos hv]
        exact keysOf_nodup_assocSet _ _ _ h
      · rw [if_neg hv]
        exact h

/-- Once the map holds `q` at key `K` and every valid parameter of `ps`
with key `K` equals `q`, processing `ps` leaves `q` at `K`. -/
theorem addParams_lookup_stable (ps : List ParamOrRef) (q : ParameterObject)
    (m : List (String × ParameterObject))
    (huniq : ∀ r, ParamOrRef.param r ∈ ps → r.name ≠ "" → r.paramIn ≠ "" →
      paramKey r = paramKey q → r = q)
    (hm : lookupStr m (paramKey q) = some q) :
    lookupStr (addParams m ps) (paramKey q) = some q := by
  induction ps generalizing m with
  | nil => exact hm
  | cons x tl ih =>
    unfold addParams
    rw [List.foldl_cons]
    have huniq2 : ∀ r, ParamOrRef.param r ∈ tl → r.name ≠ "" → r.paramIn ≠ "" →
        paramKey r = paramKey q → r = q :=
      fun r hr => huniq r (List.mem_cons_of_mem _ hr)
    cases x with
    | ref s => exact ih _ huniq2 hm
    | param p =>
      dsimp only
      by_cases hv : p.name ≠ "" ∧ p.paramIn ≠ ""
      · rw [if_pos hv]
        by_cases hk : paramKey p = paramKey q
        · have hpq : p = q := huniq p (List.mem_cons_self _ _) hv.1 hv.2 hk
          subst hpq
          exact ih _ huniq2 (by rw [hk] at hk ⊢; rw [lookupStr_assocSet_self])
        · exact ih _ huniq2 (by rw [lookupStr_assocSet_ne _ _ _ _ (fun he => hk he.symm)]; exact hm)
      · rw [if_neg hv]
        exact ih _ huniq2 hm

/-- If `q` is a valid member of `ps` and the only valid member carrying
its key, processing `ps` stores `q` at its key. -/
theorem addParams_lookup_last (ps : List ParamOrRef) (q : ParameterObject)
    (m : List (String × ParameterObject))
    (hq1 : q.name ≠ "") (hq2 : q.paramIn ≠ "")
    (huniq : ∀ r, ParamOrRef.param r ∈ ps → r.name ≠ "" → r.paramIn ≠ "" →
      paramKey r = paramKey q → r = q)
    (hmem : ParamOrRef.param q ∈ ps) :
    lookupStr (addParams m ps) (paramKey q) = some q := by
  induction ps generalizing m with
  | nil => cases hmem
  | cons x tl ih =>
    unfold addParams
    rw [List.foldl_cons]
    have huniq2 : ∀ r, ParamOrRef.param r ∈ tl → r.name ≠ "" → r.paramIn ≠ "" →
        paramKey r = paramKey q → r = q :=
      fun r hr => huniq r (List.mem_cons_of_mem _ hr)
    rcases List.mem_cons.mp hmem with hx | hmem2
    · rw [← hx]
      dsimp only
      rw [if_pos ⟨hq1, hq2⟩]
      exact addParams_lookup_stable tl q _ huniq2 (lookupStr_assocSet_self _ _ _)
    · cases x with
      | ref s => exact ih _ huniq2 hmem2
      | param p =>
        dsimp only
        by_cases hv : p.name ≠ "" ∧ p.paramIn ≠ ""
        · rw [if_pos hv]
          exact ih _ huniq2 hmem2
        · rw [if_neg hv]
          exact ih _ huniq2 hmem2

/-- C7: the merged parameter list of an operation is deduplicated by the
`(location, name)` key, and when an operation-level parameter is the one
valid operation-level entry for its `(location, name)` key, it — not any
path-level parameter with the same key — is the entry retained
(observable through its `description`/`schema`, since the retained entry
equals it). -/
theorem mergeParameters_override (pathParams opParams : List ParamOrRef)
    (q : ParameterObject) :
    ((mergeParameters pathParams opParams).map fun p => (p.paramIn, p.name)).Nodup ∧
    (q.name ≠ "" → q.paramIn ≠ "" → ParamOrRef.param q ∈ opParams →
      (∀ r, ParamOrRef.param r ∈ opParams → r.name ≠ "" → r.paramIn ≠ "" →
        paramKey r = paramKey q → r = q) →
      q ∈ mergeParameters pathParams opParams ∧
      ∀ p ∈ mergeParameters pathParams opParams,
        p.paramIn = q.paramIn → p.name = q.name → p = q) := by
  have hinv : ∀ kv ∈ addParams (addParams [] pathParams) opParams, kv.1 = paramKey kv.2 :=
    addParams_key_inv _ _ (addParams_key_inv _ _ (by intro kv hkv; cases hkv))
  have hnd : (keysOf (addParams (addParams [] pathParams) opParams)).Nodup :=
    addParams_keys_nodup _ _ (addParams_keys_nodup _ _ (by simp [keysOf]))
  have hkeys : keysOf (addParams (addParams [] pathParams) opParams) =
      (mergeParameters pathParams opParams).map paramKey := by
    unfold keysOf mergeParameters
    rw [List.map_map]
    exact List.map_congr_left fun kv hkv => hinv kv hkv
  have hndpair : ((mergeParameters pathParams opParams).map fun p => (p.paramIn, p.name)).Nodup := by
    have h1 : ((mergeParameters pathParams opParams).map paramKey).Nodup := by
      rw [← hkeys]; exact hnd
    have h2 : (mergeParameters pathParams opParams).map paramKey =
        ((mergeParameters pathParams opParams).map fun p => (p.paramIn, p.name)).map
          fun pr => pr.1 ++ ":" ++ pr.2 := by
      rw [List.map_map]
      exact List.map_congr_left fun p _ => rfl
    rw [h2] at h1
    exact h1.of_map _
  refine ⟨hndpair, ?_⟩
  intro hq1 hq2 hmem huniq
  have hlook : lookupStr (addParams (addParams [] pathParams) opParams) (paramKey q) = some q :=
    addParams_lookup_last _ _ _ hq1 hq2 huniq hmem
  have hqmem : q ∈ mergeParameters pathParams opParams := by
    unfold lookupStr at hlook
    rcases Option.map_eq_some'.mp hlook with ⟨kv, hkv, hv⟩
    unfold mergeParameters
    exact hv ▸ List.mem_map_of_mem _ (List.mem_of_find?_eq_some hkv)
  refine ⟨hqmem, ?_⟩
  intro p hp hin hname
  exact List.inj_on_of_nodup_map hndpair hp hqmem (by simp [hin, hname])

/-- C7 witness: a path-level `(query, id)` parameter is overridden by
the operation-level one, observable through its description and
schema. -/
theorem mergeParameters_override_witness :
    (⟨"id", "query", true, some "op-level", some "s2"⟩ : ParameterObject) ∈
      mergeParameters [.param ⟨"id", "query", false, some "path-level", some "s1"⟩]
        [.param ⟨"id", "query", true, some "op-level", some "s2"⟩] ∧
    mergeParameters [.param ⟨"id", "query", false, some "path-level", some "s1"⟩]
        [.param ⟨"id", "query", true, some "op-level", some "s2"⟩] =
      [⟨"id", "query", true, some "op-level", some "s2"⟩] :=
  ⟨((mergeParameters_override
      [.param ⟨"id", "query", false, some "path-level", some "s1"⟩]
      [.param ⟨"id", "query", true, some "op-level", some "s2"⟩]
      ⟨"id", "query", true, some "op-level", some "s2"⟩).2
      (by decide) (by decide) (List.mem_singleton.mpr rfl)
      (fun r hr _ _ _ => ParamOrRef.param.inj (List.mem_singleton.mp hr))).1,
    by decide⟩

end ApiExplorer
